import Mathlib

/-!
Verification development for the fixture-enrichment service in `src/app.py`.
The Python source is shallowly embedded: pure computations become Lean
functions, wall-clock time is passed explicitly as a rational number,
Python `float` prices are modelled as rationals, dictionaries become
functions into `Option`, and uncaught Python exceptions become the
`Except.error` constructor.
-/

namespace BettingApp

/-- Bet-type id for the over/under goals market (`GOALS_BET_ID = 5`). -/
def GOALS_BET_ID : Int := 5

/-- Bet-type id for the double-chance market (`DOUBLE_CHANCE_BET_ID = 12`). -/
def DOUBLE_CHANCE_BET_ID : Int := 12

/-- Bet-type id for the match-winner market (`MATCH_WINNER_BET_ID = 1`). -/
def MATCH_WINNER_BET_ID : Int := 1

/-- TTL for predictions and odds caches (`CACHE_DURATION = 7200` seconds). -/
def CACHE_DURATION : ℚ := 7200

/-- TTL for raw fixture-list cache (`API_CACHE_DURATION = 3600` seconds). -/
def API_CACHE_DURATION : ℚ := 3600

/-- TTL for the filtered-fixtures snapshot cache (`FIXTURES_CACHE_DURATION = 7200`). -/
def FIXTURES_CACHE_DURATION : ℚ := 7200

/-- Ceiling of the rate governor (`MAX_REQUESTS_PER_SECOND = 8`). -/
def MAX_REQUESTS_PER_SECOND : Nat := 8

/-- Python's substring containment test `pat in hay` (true for the empty pattern). -/
def strContains (hay pat : String) : Bool :=
  hay.toList.tails.any (fun t => pat.toList.isPrefixOf t)

/-- Python `str.lower()` (the advice and label strings are ASCII). -/
def pyLower (s : String) : String :=
  String.mk (s.toList.map Char.toLower)

/-- Python `str.strip()`: removes leading and trailing whitespace. -/
def pyStrip (s : String) : String :=
  String.mk (((s.toList.dropWhile Char.isWhitespace).reverse.dropWhile
    Char.isWhitespace).reverse)

/-- Python `str.startswith(pre)`. -/
def pyStartsWith (s pre : String) : Bool :=
  pre.toList.isPrefixOf s.toList

/-- Numeric value of a digit string, most significant digit first. -/
def digitsToNat (l : List Char) : Nat :=
  l.foldl (fun acc c => 10 * acc + (c.toNat - 48)) 0

/-- Rational value of an integer digit part together with a fractional digit
part: the digits are read as one integer scaled by a power of ten. -/
def decimalValue (ip fp : List Char) : ℚ :=
  mkRat (digitsToNat ip * 10 ^ fp.length + digitsToNat fp) (10 ^ fp.length)

/-- Decimal subset of Python's `float(s)` conversion: surrounding whitespace,
an optional sign, and digits with an optional fractional part.  Exotic forms
accepted by Python (exponents, `inf`, `nan`, underscores) are not used by the
odds data this program parses and are mapped to `none` (a conversion error). -/
def parseDecimal (s : String) : Option ℚ :=
  let l := (pyStrip s).toList
  let signed : Bool × List Char :=
    match l with
    | '-' :: r => (true, r)
    | '+' :: r => (false, r)
    | _ => (false, l)
  let neg := signed.1
  let l1 := signed.2
  let ip := l1.takeWhile Char.isDigit
  let r1 := l1.dropWhile Char.isDigit
  match r1 with
  | [] =>
    if ip.isEmpty then none
    else some (if neg then -(decimalValue ip []) else decimalValue ip [])
  | '.' :: r2 =>
    let fp := r2.takeWhile Char.isDigit
    let r3 := r2.dropWhile Char.isDigit
    if r3.isEmpty && !(ip.isEmpty && fp.isEmpty) then
      some (if neg then -(decimalValue ip fp) else decimalValue ip fp)
    else none
  | _ => none

/-- Matcher for the tail `\s+and\s+([+-]\d+(\.\d+)?)\s*goals` of the combo
advice pattern, returning the characters of the signed goal group. -/
def matchComboTail (l : List Char) : Option (List Char) :=
  let w1 := l.takeWhile Char.isWhitespace
  let l1 := l.dropWhile Char.isWhitespace
  if w1.isEmpty then none
  else if ("and".toList).isPrefixOf l1 then
    let l2 := l1.drop 3
    let w2 := l2.takeWhile Char.isWhitespace
    let l3 := l2.dropWhile Char.isWhitespace
    if w2.isEmpty then none
    else
      match l3 with
      | c :: l4 =>
        if c = '-' || c = '+' then
          let ds := l4.takeWhile Char.isDigit
          let l5 := l4.dropWhile Char.isDigit
          if ds.isEmpty then none
          else
            let fracSplit : List Char × List Char :=
              match l5 with
              | '.' :: r =>
                let fd := r.takeWhile Char.isDigit
                if fd.isEmpty then ([], l5) else ('.' :: fd, r.dropWhile Char.isDigit)
              | _ => ([], l5)
            let l7 := fracSplit.2.dropWhile Char.isWhitespace
            if ("goals".toList).isPrefixOf l7 then some (c :: (ds ++ fracSplit.1))
            else none
        else none
      | [] => none
  else none

/-- Lazy search for the shortest non-empty, newline-free group-1 text
followed by a successful `matchComboTail`; mirrors `(.+?)` semantics. -/
def comboDcSplit : List Char → List Char → Option (List Char × List Char)
  | [], _ => none
  | c :: rest, acc =>
    if c = '\n' then none
    else
      match matchComboTail rest with
      | some g => some (acc ++ [c], g)
      | none => comboDcSplit rest (acc ++ [c])

/-- Continuation of the combo regex after the literal `combo double chance`:
`\s*:\s*` then the lazy group and tail.  When no split starting after the
greedily consumed whitespace run matches, the engine backtracks `\s*`, and
group 1 can instead match one whitespace character of the run: the character
must not be a newline (`.` excludes it) and cannot be the run's final
character, which is needed to satisfy the following `\s+`; the backtracking
order settles on the latest eligible character.  Group 1 spanning several run
characters or ending at the run's final character never matches, since the
tail conditions from each candidate end position coincide with ones already
refuted.  That fallback is reproduced here. -/
def comboAfterLit (l : List Char) : Option (List Char × List Char) :=
  let l1 := l.dropWhile Char.isWhitespace
  match l1 with
  | ':' :: l2 =>
    let ws := l2.takeWhile Char.isWhitespace
    let body := l2.dropWhile Char.isWhitespace
    (match comboDcSplit body [] with
     | some r => some r
     | none =>
       match (ws.dropLast.filter (fun c => c != '\n')).getLast? with
       | some c =>
         match matchComboTail (l2.drop (ws.length - 1)) with
         | some g => some ([c], g)
         | none => none
       | none => none)
  | _ => none

/-- Leftmost-match search of
`combo double chance\s*:\s*(.+?)\s+and\s+([+-]\d+(\.\d+)?)\s*goals`. -/
def comboSearchAux : List Char → Option (List Char × List Char)
  | [] => none
  | c :: rest =>
    match
      (if ("combo double chance".toList).isPrefixOf (c :: rest) then
        comboAfterLit ((c :: rest).drop 19)
      else none) with
    | some r => some r
    | none => comboSearchAux rest

/-- Embedding of `re.search(r'combo double chance\s*:\s*(.+?)\s+and\s+([+-]\d+(\.\d+)?)\s*goals', s)`
returning the two captured groups. -/
def comboParse (s : String) : Option (String × String) :=
  (comboSearchAux s.toList).map (fun p => (String.mk p.1, String.mk p.2))

/-- Matcher for `\d+(\.\d+)?\s*goals` after a sign, returning the magnitude. -/
def goalsTail (l : List Char) : Option ℚ :=
  let ds := l.takeWhile Char.isDigit
  let l1 := l.dropWhile Char.isDigit
  if ds.isEmpty then none
  else
    let fracSplit : List Char × List Char :=
      match l1 with
      | '.' :: r =>
        let fd := r.takeWhile Char.isDigit
        if fd.isEmpty then ([], l1) else (fd, r.dropWhile Char.isDigit)
      | _ => ([], l1)
    let l2 := fracSplit.2.dropWhile Char.isWhitespace
    if ("goals".toList).isPrefixOf l2 then some (decimalValue ds fracSplit.1)
    else none

/-- Leftmost-match scan for `([+-]\d+(\.\d+)?)\s*goals`, returning the sign
character and the magnitude of the threshold. -/
def goalsSearchAux : List Char → Option (Char × ℚ)
  | [] => none
  | c :: rest =>
    if c = '-' || c = '+' then
      match goalsTail rest with
      | some mag => some (c, mag)
      | none => goalsSearchAux rest
    else goalsSearchAux rest

/-- Embedding of `re.search(r'([+-]\d+(\.\d+)?)\s*goals', s)`, with the
captured group pre-parsed into sign and magnitude (the group always has the
shape `[+-]\d+(\.\d+)?`, on which Python's `float` cannot fail). -/
def goalsSearch (s : String) : Option (Char × ℚ) :=
  goalsSearchAux s.toList

/-- One selection inside a bet: `{"value": label, "odd": price-string}`.
A missing `odd` key (Python `option.get("odd")` returning `None`) is `none`;
a missing `value` key defaults to the empty string as in `option.get("value", "")`. -/
structure BetOption where
  value : String
  odd : Option String
deriving DecidableEq, Inhabited

/-- One bet inside a bookmaker: `{"id": bet-type id, "values": selections}`. -/
structure Bet where
  id : Option Int
  values : List BetOption
deriving DecidableEq, Inhabited

/-- One bookmaker entry of an odds payload. -/
structure Bookmaker where
  bets : List Bet
deriving DecidableEq, Inhabited

/-- One market entry of an `/odds` response array. -/
structure OddsMarket where
  bookmakers : List Bookmaker
deriving DecidableEq, Inhabited

/-- The fields of a raw fixture object that the embedded functions read, plus
the keys the pipeline may add (`advice`, `advice_odd`, `prediction_won`).
Defaults on the extra keys represent their absence from the raw API object. -/
structure Fixture where
  id : Option Int
  statusShort : String
  homeName : String
  awayName : String
  goalsHome : Option Int
  goalsAway : Option Int
  advice : Option String := none
  adviceOdd : Option ℚ := none
  predictionWon : Option Bool := none
deriving DecidableEq, Inhabited

/-- One entry of a `/predictions` response: only the nested `advice` field is
read by the embedded functions. -/
structure PredEntry where
  advice : Option String
deriving DecidableEq, Inhabited

/-- Python truthiness of the running odds value: `None` and `0.0` are falsy. -/
def truthyQ : Option ℚ → Bool
  | none => false
  | some q => decide (q ≠ 0)

/-- Conversion `float(option.get("odd"))`: a missing key raises `TypeError`,
a malformed string raises `ValueError`; both are uncaught in the combo branch. -/
def parseOddExc (o : BetOption) : Except Unit ℚ :=
  match o.odd with
  | none => .error ()
  | some s =>
    match parseDecimal s with
    | none => .error ()
    | some q => .ok q

/-- Exact label comparison used for the double-chance leg:
`option.get("value", "").strip().lower() == target`. -/
def dcMatch (target v : String) : Bool := v == target

/-- Substring label comparison used for the goals leg:
`target in option.get("value", "").strip().lower()`. -/
def guMatch (target v : String) : Bool := strContains v target

/-- Innermost loops of the combo-branch odds scan over one bookmaker's bets:
a bet with the requested id updates the running value with its first matching
selection (conversion may raise), and a truthy running value breaks the loop. -/
def comboScanBets (betId : Int) (matchFn : String → Bool) :
    List Bet → Option ℚ → Except Unit (Option ℚ)
  | [], cur => .ok cur
  | b :: rest, cur =>
    if b.id == some betId then
      match
        ((match b.values.find? (fun o => matchFn (pyLower (pyStrip o.value))) with
          | some o =>
            match parseOddExc o with
            | .error e => .error e
            | .ok q => .ok (some q)
          | none => .ok cur) : Except Unit (Option ℚ)) with
      | .error e => .error e
      | .ok cur2 =>
        if truthyQ cur2 then .ok cur2 else comboScanBets betId matchFn rest cur2
    else comboScanBets betId matchFn rest cur

/-- Bookmaker-level loop of the combo-branch odds scan. -/
def comboScanBookmakers (betId : Int) (matchFn : String → Bool) :
    List Bookmaker → Option ℚ → Except Unit (Option ℚ)
  | [], cur => .ok cur
  | bk :: rest, cur =>
    match comboScanBets betId matchFn bk.bets cur with
    | .error e => .error e
    | .ok cur2 =>
      if truthyQ cur2 then .ok cur2 else comboScanBookmakers betId matchFn rest cur2

/-- Market-level loop of the combo-branch odds scan. -/
def comboScanMarkets (betId : Int) (matchFn : String → Bool) :
    List OddsMarket → Option ℚ → Except Unit (Option ℚ)
  | [], cur => .ok cur
  | m :: rest, cur =>
    match comboScanBookmakers betId matchFn m.bookmakers cur with
    | .error e => .error e
    | .ok cur2 =>
      if truthyQ cur2 then .ok cur2 else comboScanMarkets betId matchFn rest cur2

/-- One leg of a combo bet: the fetched odds payload (already looked up
through cache or API; `none` models an unavailable payload) scanned for the
target selection.  Scanning an empty payload and skipping the scan on a falsy
payload both leave the running value at `None`. -/
def comboLeg (fetched : Option (List OddsMarket)) (betId : Int)
    (matchFn : String → Bool) : Except Unit (Option ℚ) :=
  match fetched with
  | none => .ok none
  | some ms => comboScanMarkets betId matchFn ms none

/-- Mapping of the double-chance clause to a target selection label
(`home/draw`, `draw/away` or `home/away`); `home` and `away` are the stripped
team names, compared lowercased by substring containment. -/
def dc_option_search (home away dcPart : String) : Option String :=
  if strContains dcPart (pyLower home) && strContains dcPart "draw" then some "home/draw"
  else if strContains dcPart (pyLower away) && strContains dcPart "draw" then some "draw/away"
  else if strContains dcPart (pyLower home) && strContains dcPart (pyLower away) then some "home/away"
  else none

/-- Mapping of the signed goal threshold to the goals-leg target label:
a leading `-` means `under`, a leading `+` means `over` (Python `lstrip`
removes every leading sign character). -/
def gu_option_search (goalVal : String) : Option String :=
  if pyStartsWith goalVal "-" then
    some ("under " ++ String.mk (goalVal.toList.dropWhile (· = '-')))
  else if pyStartsWith goalVal "+" then
    some ("over " ++ String.mk (goalVal.toList.dropWhile (· = '+')))
  else none

/-- Simple-bet odds scan: the nested loops return on the first selection
(inside a bet with the requested id) whose label equals the target exactly;
the conversion of its odd string is wrapped in try/except, so a malformed or
missing odd yields `None` rather than an exception. -/
def simpleScan (betId : Int) (target : String) (ms : List OddsMarket) : Option ℚ :=
  let opts := ms.flatMap (fun m => m.bookmakers.flatMap (fun bk =>
    (bk.bets.filter (fun b => b.id == some betId)).flatMap Bet.values))
  match opts.find? (fun o => pyLower (pyStrip o.value) == target) with
  | none => none
  | some o => o.odd.bind parseDecimal

/-- Embedding of `get_advice_odd(fixture, advice)`.  `fetch` stands for the
cache-then-API odds lookup keyed by fixture id and bet id: the source reads
the TTL cache and falls back to `api_get`, and its return value depends only
on the payload so obtained.  `Except.error` marks an uncaught exception. -/
def get_advice_odd (fetch : Option Int → Int → Option (List OddsMarket))
    (fx : Fixture) (advice : Option String) : Except Unit (Option ℚ) :=
  match advice with
  | none => .ok none
  | some a =>
    if a = "" then .ok none
    else
      let home := pyStrip fx.homeName
      let away := pyStrip fx.awayName
      let al := pyLower a
      if strContains al "combo double chance" then
        match comboParse al with
        | none => .ok none
        | some (dcPartRaw, goalRaw) =>
          match dc_option_search home away (pyStrip dcPartRaw) with
          | none => .ok none
          | some dcTarget =>
            match gu_option_search (pyStrip goalRaw) with
            | none => .ok none
            | some guTarget =>
              match comboLeg (fetch fx.id DOUBLE_CHANCE_BET_ID) DOUBLE_CHANCE_BET_ID
                  (dcMatch dcTarget) with
              | .error e => .error e
              | .ok dcVal =>
                match comboLeg (fetch fx.id GOALS_BET_ID) GOALS_BET_ID
                    (guMatch guTarget) with
                | .error e => .error e
                | .ok guVal =>
                  if truthyQ dcVal && truthyQ guVal then
                    .ok (some (dcVal.getD 0 * guVal.getD 0))
                  else .ok none
      else
        let desired : Option Int × String :=
          if strContains al "double chance" then
            (some DOUBLE_CHANCE_BET_ID,
              if strContains al (pyLower home) && strContains al "draw" then "home/draw"
              else if strContains al (pyLower away) && strContains al "draw" then "draw/away"
              else if strContains al (pyLower home) && strContains al (pyLower away) then "home/away"
              else "")
          else if strContains al "winner" then
            (some MATCH_WINNER_BET_ID,
              if strContains al (pyLower home) then "home"
              else if strContains al (pyLower away) then "away"
              else "")
          else (none, "")
        match desired.1 with
        | some bid =>
          if desired.2 ≠ "" then
            match fetch fx.id bid with
            | none => .ok none
            | some ms => .ok (simpleScan bid desired.2 ms)
          else .ok none
        | none => .ok none

/-- Embedding of `check_prediction_result(fixture, advice)`: `none` models the
Python `None` returned for missing advice, missing score components, or an
advice matching no branch.  The source's nested `if` blocks fall through when
their inner team-containment conditions all fail, which is rendered here as a
flat chain of guarded alternatives in the same order. -/
def check_prediction_result (fx : Fixture) (advice : Option String) : Option Bool :=
  match advice with
  | none => none
  | some a =>
    if a = "" then none
    else
      match fx.goalsHome, fx.goalsAway with
      | some hg, some ag =>
        let home := pyLower (pyStrip fx.homeName)
        let away := pyLower (pyStrip fx.awayName)
        let al := pyLower a
        let actual : String := if hg > ag then "home" else if ag > hg then "away" else "draw"
        if strContains al "winner" && strContains al home then
          some (actual == "home")
        else if strContains al "winner" && strContains al away then
          some (actual == "away")
        else if strContains al "double chance" && strContains al home && strContains al "draw" then
          some (actual == "home" || actual == "draw")
        else if strContains al "double chance" && strContains al away && strContains al "draw" then
          some (actual == "away" || actual == "draw")
        else if strContains al "double chance" && strContains al home && strContains al away then
          some (actual == "home" || actual == "away")
        else if strContains al "combo" then
          let dcCorrect : Bool :=
            if strContains al home && strContains al "draw" then
              actual == "home" || actual == "draw"
            else if strContains al away && strContains al "draw" then
              actual == "away" || actual == "draw"
            else if strContains al home && strContains al away then
              actual == "home" || actual == "away"
            else false
          let goalsCorrect : Bool :=
            match goalsSearch al with
            | none => false
            | some (sign, mag) =>
              let total : Int := hg + ag
              if sign = '-' then decide ((total : ℚ) < mag)
              else if sign = '+' then decide (mag < (total : ℚ))
              else false
          some (dcCorrect && goalsCorrect)
        else none
      | _, _ => none

/-- Embedding of `get_cached_data(cache_dict, key, duration)`; the wall clock
read by `datetime.now().timestamp()` is the explicit argument `now`. -/
def get_cached_data {α : Type} (cache : String → Option (α × ℚ)) (key : String)
    (now duration : ℚ) : Option α :=
  match cache key with
  | some entry => if now - entry.2 < duration then some entry.1 else none
  | none => none

/-- Embedding of `set_cached_data(cache_dict, key, data)`, returning the
updated dictionary. -/
def set_cached_data {α : Type} (cache : String → Option (α × ℚ)) (key : String)
    (data : α) (now : ℚ) : String → Option (α × ℚ) :=
  fun k => if k = key then some (data, now) else cache k

/-- Embedding of `get_fixtures_by_date(date)`.  `apiResult` is the payload
`api_get("/fixtures", {"date": date})` would produce on this call.  Returns
the result, the updated raw-fixtures cache, and whether the upstream API was
contacted.  A cached value passes the Python truthiness test `if cached:`
only when it is a non-empty list, and a result is stored only when truthy. -/
def get_fixtures_by_date (cache : String → Option (List Fixture × ℚ)) (now : ℚ)
    (date : String) (apiResult : Option (List Fixture)) :
    Option (List Fixture) × (String → Option (List Fixture × ℚ)) × Bool :=
  let key := "raw_fixtures_" ++ date
  match get_cached_data cache key now API_CACHE_DURATION with
  | some cached =>
    if cached ≠ [] then (some cached, cache, false)
    else
      match apiResult with
      | some r =>
        if r ≠ [] then (some r, set_cached_data cache key r now, true)
        else (some r, cache, true)
      | none => (none, cache, true)
  | none =>
    match apiResult with
    | some r =>
      if r ≠ [] then (some r, set_cached_data cache key r now, true)
      else (some r, cache, true)
    | none => (none, cache, true)

/-- Outcome of one HTTP attempt inside `api_get`: either a response with a
status code and (for status 200) the parsed `response` field, or a transport
error raised by `requests.get` and caught by the `except` clause. -/
inductive ApiAttempt (α : Type) where
  | status (code : Nat) (payload : Option α)
  | exception
deriving DecidableEq

/-- Body of the retry loop `for attempt in range(max_retries)` of `api_get`.
The outcome list supplies one entry per attempt (its length is
`max_retries`), so `attempt < max_retries - 1` is `rest ≠ []`.  The second
component counts the attempts actually performed. -/
def apiGetLoop {α : Type} : List (ApiAttempt α) → Nat → Option α × Nat
  | [], n => (none, n)
  | a :: rest, n =>
    match a with
    | .status code payload =>
      if code = 200 then (payload, n + 1)
      else if code = 429 then
        if rest.isEmpty then (none, n + 1) else apiGetLoop rest (n + 1)
      else (none, n + 1)
    | .exception =>
      if rest.isEmpty then (none, n + 1) else apiGetLoop rest (n + 1)

/-- Embedding of `api_get(path, params, max_retries)` over the outcomes of
its successive attempts (`outs.length = max_retries`, default 3). -/
def api_get {α : Type} (outs : List (ApiAttempt α)) : Option α × Nat :=
  apiGetLoop outs 0

/-- State of the rate governor: `times` is `request_times["global"]` and
`hist` is the full sequence of recorded acquisition timestamps, kept for
specification purposes only. -/
structure RLState where
  times : List ℚ
  hist : List ℚ
deriving DecidableEq

/-- The list comprehension `[t for t in request_times[endpoint] if now - t < 1.0]`. -/
def dropOld (now : ℚ) (ts : List ℚ) : List ℚ :=
  ts.filter (fun t => decide (now - t < 1))

/-- Embedding of `wait_for_rate_limit()` at wall-clock time `now`, returning
the new state and the time at which the function records its request and
returns (`time.sleep` advances the clock by exactly the requested amount).
The whole body runs under `rate_limit_lock`, so calls are serialized. -/
def wait_for_rate_limit (st : RLState) (now : ℚ) : RLState × ℚ :=
  let ts := dropOld now st.times
  if MAX_REQUESTS_PER_SECOND ≤ ts.length then
    match ts with
    | [] => (⟨ts ++ [now], st.hist ++ [now]⟩, now)
    | t0 :: _ =>
      let sleepTime := 1 - (now - t0)
      if 0 < sleepTime then
        let now2 := now + sleepTime
        let ts2 := dropOld now2 ts
        (⟨ts2 ++ [now2], st.hist ++ [now2]⟩, now2)
      else (⟨ts ++ [now], st.hist ++ [now]⟩, now)
  else (⟨ts ++ [now], st.hist ++ [now]⟩, now)

/-- A serialized sequence of `wait_for_rate_limit` calls: each list entry is
the non-negative delay between the return of one call and the start of the
next.  Returns the final state and clock. -/
def runRL : RLState → ℚ → List ℚ → RLState × ℚ
  | st, clock, [] => (st, clock)
  | st, clock, d :: ds =>
    let r := wait_for_rate_limit st (clock + d)
    runRL r.1 r.2 ds

/-- Number of recorded acquisitions inside the trailing 1-second window ending
at `e` (a timestamp `t` is in the window when `t ≤ e` and `e - t < 1`). -/
def windowCount (hist : List ℚ) (e : ℚ) : Nat :=
  (hist.filter (fun t => decide (e - 1 < t) && decide (t ≤ e))).length

/-- Invariant of the rate governor at clock time `c`: the request list holds
at most `N` entries, every recorded timestamp lies in the past, the recorded
history and the request list agree on every suffix younger than `c - 1`, and
no trailing 1-second window holds more than `N` recorded acquisitions. -/
def RLInv (st : RLState) (c : ℚ) : Prop :=
  st.times.length ≤ MAX_REQUESTS_PER_SECOND ∧
  (∀ t ∈ st.hist, t ≤ c) ∧
  (∀ x : ℚ, c - 1 ≤ x →
    (st.hist.filter (fun t => decide (x < t))).length =
      (st.times.filter (fun t => decide (x < t))).length) ∧
  (∀ e : ℚ, windowCount st.hist e ≤ MAX_REQUESTS_PER_SECOND)

/-- Statuses the source treats as terminal: `["FT", "AET", "PEN"]`. -/
def terminalStatuses : List String := ["FT", "AET", "PEN"]

/-- One entry of `filtered_fixtures_cache`: `{'fixtures': ..., 'timestamp': ...}`. -/
structure FilteredEntry where
  fixtures : List Fixture
  timestamp : ℚ
deriving DecidableEq

/-- Embedding of `get_filtered_fixtures_from_cache(date_str)`.  `onDemand` is
the value `filter_fixtures_for_date(date_str)` would synchronously compute on
a cache miss or expiry. -/
def get_filtered_fixtures_from_cache (cache : String → Option FilteredEntry)
    (now : ℚ) (dateStr : String) (onDemand : List Fixture) : List Fixture :=
  match cache dateStr with
  | some cd =>
    if now - cd.timestamp < FIXTURES_CACHE_DURATION + 3600 then cd.fixtures
    else onDemand
  | none => onDemand

/-- Enrichment step of the `/api/fixtures` loop for one non-terminal fixture:
a cached prediction with truthy advice and truthy advice odd adds the
`advice_odd` key.  The `get_advice_odd` call is not guarded by try/except in
this route, so its exceptions propagate. -/
def enrichUpcoming (predC : Option Int → Option (List PredEntry))
    (fetch : Option Int → Int → Option (List OddsMarket)) (f : Fixture) :
    Except Unit Fixture :=
  match predC f.id with
  | some (p :: _) =>
    match p.advice with
    | some a =>
      if a = "" then .ok f
      else
        match get_advice_odd fetch f (some a) with
        | .error e => .error e
        | .ok (some v) => if v ≠ 0 then .ok { f with adviceOdd := some v } else .ok f
        | .ok none => .ok f
    | none => .ok f
  | _ => .ok f

/-- The `for fixture in filtered_fixtures` loop of `/api/fixtures`: terminal
fixtures (`FT`, `AET`, `PEN`) are skipped, every other fixture is appended
after the enrichment attempt. -/
def apiFixturesLoop (predC : Option Int → Option (List PredEntry))
    (fetch : Option Int → Int → Option (List OddsMarket)) :
    List Fixture → Except Unit (List Fixture)
  | [] => .ok []
  | f :: rest =>
    if terminalStatuses.contains f.statusShort then apiFixturesLoop predC fetch rest
    else
      match enrichUpcoming predC fetch f with
      | .error e => .error e
      | .ok f2 =>
        match apiFixturesLoop predC fetch rest with
        | .error e => .error e
        | .ok rest2 => .ok (f2 :: rest2)

/-- The JSON body `jsonify({"fixtures": ...})` returned by both fixture
routes; it carries no other key. -/
structure ApiFixturesResponse where
  fixtures : List Fixture
deriving DecidableEq

/-- Embedding of the `/api/fixtures` route for a given date: the filtered
list is read from the snapshot cache (falling back to the synchronous
on-demand build `onDemand`) and the non-terminal fixtures are returned. -/
def api_fixtures (cache : String → Option FilteredEntry) (now : ℚ)
    (dateStr : String) (onDemand : List Fixture)
    (predC : Option Int → Option (List PredEntry))
    (fetch : Option Int → Int → Option (List OddsMarket)) :
    Except Unit ApiFixturesResponse :=
  match apiFixturesLoop predC fetch
      (get_filtered_fixtures_from_cache cache now dateStr onDemand) with
  | .error e => .error e
  | .ok ups => .ok ⟨ups⟩

/-- Embedding of `process_finished_fixture(fixture)`.  The whole body is
wrapped in try/except returning `None`, so an exception from
`get_advice_odd` becomes a discard. -/
def process_finished_fixture (predC : Option Int → Option (List PredEntry))
    (fetch : Option Int → Int → Option (List OddsMarket)) (f : Fixture) :
    Option Fixture :=
  match f.id with
  | none => none
  | some _ =>
    match predC f.id with
    | none => none
    | some preds =>
      match (match preds with
             | p :: _ => p.advice
             | [] => none) with
      | none => none
      | some a =>
        if a = "" || a = "—" then none
        else
          match get_advice_odd fetch f (some a) with
          | .error _ => none
          | .ok none => none
          | .ok (some v) =>
            if v = 0 then none
            else
              some { f with advice := some a, adviceOdd := some v,
                            predictionWon := check_prediction_result f (some a) }

/-- Embedding of the `/api/fixtures/finished` route: the raw fixture list for
the date (`rawFixtures`, the `get_fixtures_by_date` result) is restricted to
terminal statuses and each survivor is processed, discarding failures. -/
def api_fixtures_finished (rawFixtures : Option (List Fixture))
    (predC : Option Int → Option (List PredEntry))
    (fetch : Option Int → Int → Option (List OddsMarket)) : ApiFixturesResponse :=
  match rawFixtures with
  | none => ⟨[]⟩
  | some l =>
    if l = [] then ⟨[]⟩
    else
      let finishedRaw := l.filter (fun f => terminalStatuses.contains f.statusShort)
      if finishedRaw = [] then ⟨[]⟩
      else ⟨finishedRaw.filterMap (process_finished_fixture predC fetch)⟩

/-- Python `range(a, b)` over integers. -/
def pythonRange (a b : Int) : List Int :=
  (List.range (b - a).toNat).map (fun i => a + (i : Int))

/-- Day offsets of the background updater loop `for day_offset in range(-1, 3)`
in `update_fixtures_cache`. -/
def update_cache_day_offsets : List Int := pythonRange (-1) 3

/-- Day offsets of `initial_cache_population`, from
`[(datetime.now() + timedelta(days=i)) for i in range(-1, 3)]`. -/
def initial_population_day_offsets : List Int := pythonRange (-1) 3

deriving instance DecidableEq for Except

/-! Concrete data used to instantiate the theorems below. -/

/-- A scheduled fixture between teams named `Home` and `Away`. -/
def fxHomeAway : Fixture :=
  { id := some 101, statusShort := "NS", homeName := "Home", awayName := "Away",
    goalsHome := none, goalsAway := none }

/-- The combo advice string of the spec's pricing example. -/
def comboAdvice : String := "Combo Double Chance: Home or Draw and -3.5 Goals"

/-- Double-chance odds payload pricing `Home/Draw` at `1.40`. -/
def dcMarkets140 : List OddsMarket :=
  [⟨[⟨[⟨some 12, [⟨"Home/Draw", some "1.40"⟩]⟩]⟩]⟩]

/-- Goals odds payload pricing `Under 3.5` at `1.90`. -/
def guMarkets190 : List OddsMarket :=
  [⟨[⟨[⟨some 5, [⟨"Under 2.5", some "2.10"⟩, ⟨"Under 3.5", some "1.90"⟩]⟩]⟩]⟩]

/-- Odds lookup serving the two payloads of the pricing example. -/
def fetchCombo : Option Int → Int → Option (List OddsMarket) :=
  fun _ bid =>
    if bid = 12 then some dcMarkets140
    else if bid = 5 then some guMarkets190
    else none

/-- Double-chance odds payload whose matching selection is priced `0`. -/
def dcMarketsZero : List OddsMarket :=
  [⟨[⟨[⟨some 12, [⟨"Home/Draw", some "0"⟩]⟩]⟩]⟩]

/-- Odds lookup with a zero-priced double-chance leg and a normal goals leg. -/
def fetchZero : Option Int → Int → Option (List OddsMarket) :=
  fun _ bid =>
    if bid = 12 then some dcMarketsZero
    else if bid = 5 then some guMarkets190
    else none

/-- Double-chance odds payload whose matching selection has a malformed odd. -/
def dcMarketsBad : List OddsMarket :=
  [⟨[⟨[⟨some 12, [⟨"Home/Draw", some "abc"⟩]⟩]⟩]⟩]

/-- Odds lookup with a malformed odd on the matching double-chance selection. -/
def fetchBadCombo : Option Int → Int → Option (List OddsMarket) :=
  fun _ bid =>
    if bid = 12 then some dcMarketsBad
    else if bid = 5 then some guMarkets190
    else none

/-- Match-winner odds payload whose matching selection has a malformed odd. -/
def mwMarketsBad : List OddsMarket :=
  [⟨[⟨[⟨some 1, [⟨"Home", some "abc"⟩]⟩]⟩]⟩]

/-- Odds lookup with a malformed odd on the matching match-winner selection. -/
def fetchBadSimple : Option Int → Int → Option (List OddsMarket) :=
  fun _ bid => if bid = 1 then some mwMarketsBad else none

/-- A finished fixture between `Home` and `Away` that ended in a 1-1 draw. -/
def fxDraw11 : Fixture :=
  { id := some 7, statusShort := "FT", homeName := "Home", awayName := "Away",
    goalsHome := some 1, goalsAway := some 1 }

/-- A combo advice whose goals leg demands strictly more than 3.5 goals. -/
def comboAdvicePlus : String := "Combo Double Chance: Home or Draw and +3.5 Goals"

/-- A scheduled fixture used by the pipeline examples. -/
def fxNS : Fixture :=
  { id := some 1, statusShort := "NS", homeName := "Alpha", awayName := "Beta",
    goalsHome := none, goalsAway := none }

/-- A finished fixture won 2-1 by the home team `Alpha`. -/
def fxFT : Fixture :=
  { id := some 3, statusShort := "FT", homeName := "Alpha", awayName := "Beta",
    goalsHome := some 2, goalsAway := some 1 }

/-- Prediction lookup with no stored predictions. -/
def predNone : Option Int → Option (List PredEntry) := fun _ => none

/-- Odds lookup with no stored payloads. -/
def fetchNone : Option Int → Int → Option (List OddsMarket) := fun _ _ => none

/-- Prediction lookup holding a `Winner: Alpha` advice for fixture 3. -/
def predWinner : Option Int → Option (List PredEntry) :=
  fun i => if i = some 3 then some [⟨some "Winner: Alpha"⟩] else none

/-- Match-winner odds payload pricing `Home` at `2.05`. -/
def mwMarkets205 : List OddsMarket :=
  [⟨[⟨[⟨some 1, [⟨"Home", some "2.05"⟩]⟩]⟩]⟩]

/-- Odds lookup serving the match-winner payload. -/
def fetchWinner : Option Int → Int → Option (List OddsMarket) :=
  fun _ bid => if bid = 1 then some mwMarkets205 else none

/-- The enriched form of `fxFT` produced by `process_finished_fixture` under
`predWinner` and `fetchWinner`. -/
def fxFTEnriched : Fixture :=
  { fxFT with advice := some "Winner: Alpha", adviceOdd := some (mkRat 41 20),
              predictionWon := some true }

/-- A snapshot cache holding an entry for one date only. -/
def cacheOneDate : String → Option FilteredEntry :=
  fun d => if d = "2026-02-01" then some ⟨[fxNS], 0⟩ else none

/-! ## Theorems -/

/-- C6: after `set_cached_data` stores `v` under `k`, `get_cached_data`
returns `v` while the elapsed time is strictly below the TTL and the miss
value `None` once the elapsed time reaches the TTL. -/
theorem claim_C6_ttl_cache {α : Type} (cache : String → Option (α × ℚ))
    (k : String) (v : α) (t0 t1 d : ℚ) :
    (t1 - t0 < d → get_cached_data (set_cached_data cache k v t0) k t1 d = some v) ∧
    (d ≤ t1 - t0 → get_cached_data (set_cached_data cache k v t0) k t1 d = none) := by
  refine ⟨fun h => ?_, fun h => ?_⟩
  · simp [get_cached_data, set_cached_data, h]
  · simp [get_cached_data, set_cached_data, not_lt.mpr h]

/-- C6 witness: a value stored at time 0 is hit at elapsed time 10 with TTL
3600 and missed at elapsed time 3600. -/
theorem claim_C6_witness :
    get_cached_data (set_cached_data (fun _ => (none : Option (ℕ × ℚ))) "k" 42 0)
      "k" 10 3600 = some 42 ∧
    get_cached_data (set_cached_data (fun _ => (none : Option (ℕ × ℚ))) "k" 42 0)
      "k" 3600 3600 = none :=
  ⟨(claim_C6_ttl_cache _ "k" 42 0 10 3600).1 (by norm_num),
   (claim_C6_ttl_cache _ "k" 42 0 3600 3600).2 (by norm_num)⟩

/-- C9 counterexample: the build window spans 4 dates, not 5, and does not
reach 2 days into the past. -/
theorem claim_C9_counterexample :
    update_cache_day_offsets.length = 4 ∧ (-2 : Int) ∉ update_cache_day_offsets := by
  decide

/-- C9 amended: both the background updater and the initial population cover
the 4 consecutive day offsets from 1 day in the past to 2 days in the future. -/
theorem claim_C9_window :
    update_cache_day_offsets = [-1, 0, 1, 2] ∧
    initial_population_day_offsets = [-1, 0, 1, 2] := by
  decide

/-- C10: an empty upstream fixture list is never stored in the raw-fixtures
cache, and a cached empty list is treated as a miss, so the upstream API is
contacted again. -/
theorem claim_C10_empty_list_recontacts (cache : String → Option (List Fixture × ℚ))
    (now : ℚ) (date : String) (t : ℚ) (api : Option (List Fixture)) :
    ((get_fixtures_by_date cache now date (some [])).2.1 = cache) ∧
    (cache ("raw_fixtures_" ++ date) = some ([], t) →
      (get_fixtures_by_date cache now date api).2.2 = true) := by
  constructor
  · simp only [get_fixtures_by_date]
    cases h : get_cached_data cache ("raw_fixtures_" ++ date) now API_CACHE_DURATION with
    | none => simp [h]
    | some l => by_cases hl : l = [] <;> simp [h, hl]
  · intro h
    simp only [get_fixtures_by_date, get_cached_data]
    rw [h]
    dsimp only
    by_cases hfresh : now - t < API_CACHE_DURATION
    · rw [if_pos hfresh]
      rcases api with _ | r
      · simp
      · by_cases hr : r = [] <;> simp [hr]
    · rw [if_neg hfresh]
      rcases api with _ | r
      · simp
      · by_cases hr : r = [] <;> simp [hr]

/-- C10 witness: with a fresh cached empty list for the date, the call still
contacts the upstream API. -/
theorem claim_C10_witness :
    (get_fixtures_by_date
      (fun k => if k = "raw_fixtures_2026-02-01" then some (([] : List Fixture), 0) else none)
      5 "2026-02-01" (some [])).2.2 = true :=
  (claim_C10_empty_list_recontacts _ 5 "2026-02-01" 0 (some [])).2 (by decide)

/-- C4 counterexample: three consecutive transport errors consume all three
attempts, i.e. the first attempt is retried twice, not at most once. -/
theorem claim_C4_counterexample :
    (api_get ([.exception, .exception, .exception] : List (ApiAttempt Unit))).2 = 3 ∧
    ¬ (api_get ([.exception, .exception, .exception] : List (ApiAttempt Unit))).2 ≤ 2 := by
  decide

/-- Attempt counter of the retry loop never exceeds the attempt budget. -/
theorem apiGetLoop_count_le {α : Type} (outs : List (ApiAttempt α)) :
    ∀ n : Nat, (apiGetLoop outs n).2 ≤ n + outs.length := by
  induction outs with
  | nil => intro n; simp [apiGetLoop]
  | cons a rest ih =>
    intro n
    have h := ih (n + 1)
    unfold apiGetLoop
    cases a with
    | status code payload =>
      dsimp only
      by_cases h200 : code = 200
      · rw [if_pos h200]
        show n + 1 ≤ n + (rest.length + 1)
        omega
      · rw [if_neg h200]
        by_cases h429 : code = 429
        · rw [if_pos h429]
          by_cases hr : rest.isEmpty
          · rw [if_pos hr]
            show n + 1 ≤ n + (rest.length + 1)
            omega
          · rw [if_neg hr]
            show (apiGetLoop rest (n + 1)).2 ≤ n + (rest.length + 1)
            omega
        · rw [if_neg h429]
          show n + 1 ≤ n + (rest.length + 1)
          omega
    | exception =>
      dsimp only
      by_cases hr : rest.isEmpty
      · rw [if_pos hr]
        show n + 1 ≤ n + (rest.length + 1)
        omega
      · rw [if_neg hr]
        show (apiGetLoop rest (n + 1)).2 ≤ n + (rest.length + 1)
        omega

/-- A run of transport errors consumes every attempt and ends in Failure. -/
theorem apiGetLoop_exception_run {α : Type} (k : Nat) :
    ∀ n : Nat,
      apiGetLoop (List.replicate (k + 1) (ApiAttempt.exception : ApiAttempt α)) n
        = (none, n + (k + 1)) := by
  induction k with
  | zero => intro n; simp [apiGetLoop, List.replicate]
  | succ k ih =>
    intro n
    rw [List.replicate_succ]
    unfold apiGetLoop
    have hne : (List.replicate (k + 1) (ApiAttempt.exception : ApiAttempt α)).isEmpty = false := by
      simp
    rw [hne]
    simp only [Bool.false_eq_true, if_false, ih (n + 1)]
    congr 1
    omega

/-- C4 amended: the attempt count never exceeds the retry budget; a non-200,
non-429 status is surfaced immediately as Failure with no retry; and a
transport error on every attempt exhausts the whole budget (two retries with
the default budget of three attempts) before Failure is returned. -/
theorem claim_C4_retry_behavior {α : Type} (outs : List (ApiAttempt α))
    (code : Nat) (payload : Option α) (rest : List (ApiAttempt α)) (n : Nat) :
    ((api_get outs).2 ≤ outs.length) ∧
    (code ≠ 200 → code ≠ 429 → api_get (ApiAttempt.status code payload :: rest) = (none, 1)) ∧
    (api_get (List.replicate (n + 1) (ApiAttempt.exception : ApiAttempt α)) = (none, n + 1)) := by
  refine ⟨?_, fun h200 h429 => ?_, ?_⟩
  · simpa using apiGetLoop_count_le outs 0
  · simp [api_get, apiGetLoop, h200, h429]
  · simpa using apiGetLoop_exception_run (α := α) n 0

/-- C4 witness: a 500 status on the first attempt is surfaced directly as
Failure after a single attempt. -/
theorem claim_C4_witness :
    api_get ([ApiAttempt.status 500 none] : List (ApiAttempt Unit)) = (none, 1) :=
  (claim_C4_retry_behavior ([] : List (ApiAttempt Unit)) 500 none [] 0).2.1
    (by decide) (by decide)

/-- C1 amended: for a combo advice whose pattern parses and whose two target
selections are determined, if both legs resolve to a non-zero numeric price
the result is their product, and if either leg fails to resolve the result is
`None` (a leg resolving to the numeric price `0` also yields `None`, because
the source tests the resolved values for Python truthiness). -/
theorem claim_C1_combo_product (fetch : Option Int → Int → Option (List OddsMarket))
    (fx : Fixture) (a dcPart goalRaw dcTarget guTarget : String)
    (dcVal guVal : Option ℚ)
    (ha : a ≠ "")
    (hcombo : strContains (pyLower a) "combo double chance" = true)
    (hparse : comboParse (pyLower a) = some (dcPart, goalRaw))
    (hdc : dc_option_search (pyStrip fx.homeName) (pyStrip fx.awayName) (pyStrip dcPart) = some dcTarget)
    (hgu : gu_option_search (pyStrip goalRaw) = some guTarget)
    (hdcleg : comboLeg (fetch fx.id DOUBLE_CHANCE_BET_ID) DOUBLE_CHANCE_BET_ID
        (dcMatch dcTarget) = .ok dcVal)
    (hguleg : comboLeg (fetch fx.id GOALS_BET_ID) GOALS_BET_ID
        (guMatch guTarget) = .ok guVal) :
    (∀ p q, dcVal = some p → guVal = some q → p ≠ 0 → q ≠ 0 →
      get_advice_odd fetch fx (some a) = .ok (some (p * q))) ∧
    ((dcVal = none ∨ dcVal = some 0 ∨ guVal = none ∨ guVal = some 0) →
      get_advice_odd fetch fx (some a) = .ok none) := by
  have key : get_advice_odd fetch fx (some a) =
      if truthyQ dcVal && truthyQ guVal then .ok (some (dcVal.getD 0 * guVal.getD 0))
      else .ok none := by
    simp only [get_advice_odd, ha, hcombo, hparse, hdc, hgu, hdcleg, hguleg,
      if_true, if_false, reduceIte]
  constructor
  · rintro p q rfl rfl hp hq
    rw [key]
    simp [truthyQ, hp, hq]
  · rintro (rfl | rfl | rfl | rfl) <;> rw [key] <;> simp [truthyQ]

/-- C1 witness: the spec's pricing example, with `home/draw` priced `1.40`
and `Under 3.5` priced `1.90`, returns `2.66`. -/
theorem claim_C1_witness :
    get_advice_odd fetchCombo fxHomeAway (some comboAdvice) = .ok (some (133/50)) := by
  have h := (claim_C1_combo_product fetchCombo fxHomeAway comboAdvice
      "home or draw" "-3.5" "home/draw" "under 3.5" (some (mkRat 7 5)) (some (mkRat 19 10))
      (by decide) (by decide) (by decide) (by decide) (by decide)
      (by decide) (by decide)).1 (mkRat 7 5) (mkRat 19 10) rfl rfl
      (by norm_num [Rat.mkRat_eq_div]) (by norm_num [Rat.mkRat_eq_div])
  have heq : mkRat 7 5 * mkRat 19 10 = (133/50 : ℚ) := by norm_num [Rat.mkRat_eq_div]
  rw [heq] at h
  exact h

/-- C1 counterexample: both legs resolve to numeric prices (`0` and `1.9`),
yet the result is `None` rather than their product `0`. -/
theorem claim_C1_counterexample :
    comboLeg (fetchZero fxHomeAway.id DOUBLE_CHANCE_BET_ID) DOUBLE_CHANCE_BET_ID
      (dcMatch "home/draw") = .ok (some 0) ∧
    comboLeg (fetchZero fxHomeAway.id GOALS_BET_ID) GOALS_BET_ID
      (guMatch "under 3.5") = .ok (some (mkRat 19 10)) ∧
    get_advice_odd fetchZero fxHomeAway (some comboAdvice) = .ok none ∧
    (Except.ok none : Except Unit (Option ℚ)) ≠ .ok (some ((0 : ℚ) * mkRat 19 10)) := by
  refine ⟨by decide, by decide, by decide, ?_⟩
  intro h
  simp at h

/-- C3: missing advice, empty advice, the sentinel no-pick marker, and a
malformed odd on a matching simple-bet selection all yield `None`, but a
malformed odd string on the matching selection of a combo leg raises an
uncaught exception from `float(option.get("odd"))`, contradicting the claim
that `get_advice_odd` never raises. -/
theorem claim_C3_combo_raises :
    get_advice_odd fetchBadCombo fxHomeAway none = .ok none ∧
    get_advice_odd fetchBadCombo fxHomeAway (some "") = .ok none ∧
    get_advice_odd fetchBadCombo fxHomeAway (some "—") = .ok none ∧
    get_advice_odd fetchBadSimple fxHomeAway (some "Winner: Home") = .ok none ∧
    get_advice_odd fetchBadCombo fxHomeAway (some comboAdvice) = .error () := by
  refine ⟨rfl, by decide, by decide, by decide, by decide⟩

/-- C2: for the finished 1-1 fixture and the combo advice demanding strictly
more than 3.5 total goals, the parsed goals leg fails (the total is 2), yet
`check_prediction_result` returns `true`: the advice contains the substring
`double chance`, so the double-chance branch returns before the combo branch
is reached and the goals leg is ignored. -/
theorem claim_C2_goals_leg_ignored :
    goalsSearch (pyLower comboAdvicePlus) = some ('+', mkRat 7 2) ∧
    ¬ (mkRat 7 2 < ((1 + 1 : Int) : ℚ)) ∧
    check_prediction_result fxDraw11 (some comboAdvicePlus) = some true := by
  refine ⟨by decide, by decide, by decide⟩

/-- C7 amended: a read for a date with no snapshot entry does not return an
empty flagged result; it synchronously falls back to the on-demand build
`filter_fixtures_for_date` and serves its outcome, exactly as if the cache
were empty (and the response carries no `building` flag at all). -/
theorem claim_C7_miss_builds_on_demand (cache : String → Option FilteredEntry)
    (now : ℚ) (dateStr : String) (onDemand : List Fixture)
    (predC : Option Int → Option (List PredEntry))
    (fetch : Option Int → Int → Option (List OddsMarket))
    (h : cache dateStr = none) :
    get_filtered_fixtures_from_cache cache now dateStr onDemand = onDemand ∧
    api_fixtures cache now dateStr onDemand predC fetch =
      api_fixtures (fun _ => none) now dateStr onDemand predC fetch := by
  have hmiss : get_filtered_fixtures_from_cache cache now dateStr onDemand = onDemand := by
    simp [get_filtered_fixtures_from_cache, h]
  refine ⟨hmiss, ?_⟩
  simp only [api_fixtures]
  rw [hmiss]
  simp [get_filtered_fixtures_from_cache]

/-- C7 witness: a date absent from the snapshot cache is served from the
on-demand build. -/
theorem claim_C7_witness :
    get_filtered_fixtures_from_cache cacheOneDate 0 "2026-03-05" [fxNS] = [fxNS] :=
  (claim_C7_miss_builds_on_demand cacheOneDate 0 "2026-03-05" [fxNS]
    predNone fetchNone (by decide)).1

/-- C7 counterexample: with no snapshot for the date, the `/api/fixtures`
response equals the freshly built on-demand result, which is non-empty here,
so the route does not answer with an empty array; its body also consists of
the single key `fixtures`, with no `building` flag. -/
theorem claim_C7_counterexample :
    api_fixtures (fun _ => none) 0 "2026-03-05" [fxNS] predNone fetchNone
      = .ok ⟨[fxNS]⟩ ∧
    [fxNS] ≠ ([] : List Fixture) := by
  refine ⟨by decide, by decide⟩

/-- Enrichment never changes a fixture's identity or status. -/
theorem enrichUpcoming_preserves (predC : Option Int → Option (List PredEntry))
    (fetch : Option Int → Int → Option (List OddsMarket)) (f f2 : Fixture)
    (h : enrichUpcoming predC fetch f = .ok f2) :
    f2.id = f.id ∧ f2.statusShort = f.statusShort := by
  unfold enrichUpcoming at h
  repeat' split at h
  all_goals first
    | (injection h with h; subst h; exact ⟨rfl, rfl⟩)
    | cases h

/-- Finished-fixture processing never changes a fixture's status. -/
theorem process_finished_status (predC : Option Int → Option (List PredEntry))
    (fetch : Option Int → Int → Option (List OddsMarket)) (f g : Fixture)
    (h : process_finished_fixture predC fetch f = some g) :
    g.statusShort = f.statusShort := by
  unfold process_finished_fixture at h
  repeat' split at h
  all_goals first
    | (injection h with h; subst h; rfl)
    | cases h

/-- The `/api/fixtures` loop keeps exactly the non-terminal fixtures of its
input, each with identity and status preserved by enrichment. -/
theorem apiFixturesLoop_mem (predC : Option Int → Option (List PredEntry))
    (fetch : Option Int → Int → Option (List OddsMarket)) (src : List Fixture) :
    ∀ up : List Fixture, apiFixturesLoop predC fetch src = .ok up →
      (∀ g ∈ up, ∃ f ∈ src, terminalStatuses.contains f.statusShort = false ∧
        g.id = f.id ∧ g.statusShort = f.statusShort) ∧
      (∀ f ∈ src, terminalStatuses.contains f.statusShort = false →
        ∃ g ∈ up, g.id = f.id ∧ g.statusShort = f.statusShort) := by
  induction src with
  | nil =>
    intro up h
    unfold apiFixturesLoop at h
    injection h with h
    subst h
    exact ⟨by simp, by simp⟩
  | cons f rest ih =>
    intro up h
    unfold apiFixturesLoop at h
    by_cases hterm : terminalStatuses.contains f.statusShort
    · rw [if_pos hterm] at h
      obtain ⟨h1, h2⟩ := ih up h
      refine ⟨?_, ?_⟩
      · intro g hg
        obtain ⟨f2, hf2, hc, hid, hst⟩ := h1 g hg
        exact ⟨f2, List.mem_cons_of_mem _ hf2, hc, hid, hst⟩
      · intro f2 hf2 hc
        rcases List.mem_cons.mp hf2 with rfl | hf2
        · rw [hterm] at hc
          cases hc
        · exact h2 f2 hf2 hc
    · rw [if_neg hterm] at h
      have hterm2 : terminalStatuses.contains f.statusShort = false := by
        simpa using hterm
      cases he : enrichUpcoming predC fetch f with
      | error e => rw [he] at h; cases h
      | ok f2 =>
        rw [he] at h
        cases hr : apiFixturesLoop predC fetch rest with
        | error e => rw [hr] at h; cases h
        | ok rest2 =>
          rw [hr] at h
          injection h with h
          subst h
          obtain ⟨hid, hst⟩ := enrichUpcoming_preserves predC fetch f f2 he
          obtain ⟨h1, h2⟩ := ih rest2 hr
          refine ⟨?_, ?_⟩
          · intro g hg
            rcases List.mem_cons.mp hg with rfl | hg
            · exact ⟨f, List.mem_cons_self f rest, hterm2, hid, hst⟩
            · obtain ⟨f3, hf3, hc, hid3, hst3⟩ := h1 g hg
              exact ⟨f3, List.mem_cons_of_mem _ hf3, hc, hid3, hst3⟩
          · intro f3 hf3 hc
            rcases List.mem_cons.mp hf3 with rfl | hf3
            · exact ⟨f2, List.mem_cons_self f2 rest2, hid, hst⟩
            · obtain ⟨g, hg, hid3, hst3⟩ := h2 f3 hf3 hc
              exact ⟨g, List.mem_cons_of_mem _ hg, hid3, hst3⟩

/-- Every fixture published by the finished route carries a terminal status. -/
theorem api_fixtures_finished_status (src : List Fixture)
    (predC : Option Int → Option (List PredEntry))
    (fetch : Option Int → Int → Option (List OddsMarket)) :
    ∀ g ∈ (api_fixtures_finished (some src) predC fetch).fixtures,
      terminalStatuses.contains g.statusShort = true := by
  intro g hg
  unfold api_fixtures_finished at hg
  dsimp only at hg
  by_cases hsrc : src = []
  · rw [if_pos hsrc] at hg
    simp at hg
  · rw [if_neg hsrc] at hg
    by_cases hfr : src.filter (fun f => terminalStatuses.contains f.statusShort) = []
    · rw [if_pos hfr] at hg
      simp at hg
    · rw [if_neg hfr] at hg
      obtain ⟨f, hf, hpf⟩ := List.mem_filterMap.mp hg
      rw [process_finished_status predC fetch f g hpf]
      exact (List.mem_filter.mp hf).2

/-- C8: a record accepted into a published result appears in exactly one of
the pending and terminal groups, decided solely by whether its status is in
`{FT, AET, PEN}`: the upcoming read keeps exactly the non-terminal records of
its source, the finished read publishes only terminal records, and no record
can appear in both groups. -/
theorem claim_C8_partition (src : List Fixture)
    (predC : Option Int → Option (List PredEntry))
    (fetch : Option Int → Int → Option (List OddsMarket)) (up : List Fixture)
    (h : apiFixturesLoop predC fetch src = .ok up) :
    (∀ g ∈ up, terminalStatuses.contains g.statusShort = false) ∧
    (∀ f ∈ src, terminalStatuses.contains f.statusShort = false →
      ∃ g ∈ up, g.id = f.id ∧ g.statusShort = f.statusShort) ∧
    (∀ g ∈ (api_fixtures_finished (some src) predC fetch).fixtures,
      terminalStatuses.contains g.statusShort = true) ∧
    (∀ g ∈ up, ∀ g2 ∈ (api_fixtures_finished (some src) predC fetch).fixtures,
      g.statusShort ≠ g2.statusShort) := by
  obtain ⟨h1, h2⟩ := apiFixturesLoop_mem predC fetch src up h
  have h3 := api_fixtures_finished_status src predC fetch
  have hup : ∀ g ∈ up, terminalStatuses.contains g.statusShort = false := by
    intro g hg
    obtain ⟨f, _, hc, _, hst⟩ := h1 g hg
    rw [hst]
    exact hc
  refine ⟨hup, h2, h3, ?_⟩
  intro g hg g2 hg2 heq
  have hcf := hup g hg
  rw [heq, h3 g2 hg2] at hcf
  cases hcf

/-- C8 witness: in a batch holding one scheduled and one finished fixture,
the upcoming read publishes the scheduled one, the finished read publishes
the enriched finished one, and their statuses differ. -/
theorem claim_C8_witness : fxNS.statusShort ≠ fxFTEnriched.statusShort :=
  (claim_C8_partition [fxNS, fxFT] predWinner fetchWinner [fxNS]
      (by decide)).2.2.2 fxNS (by decide) fxFTEnriched (by decide)

/-- Filtering by a predicate implied by the counting predicate does not
change the count. -/
theorem length_filter_filter_of_imp (l : List ℚ) (p q : ℚ → Bool)
    (himp : ∀ t, q t = true → p t = true) :
    ((l.filter p).filter q).length = (l.filter q).length := by
  rw [List.filter_filter]
  congr 1
  apply List.filter_congr
  intro t _
  cases hq : q t
  · simp
  · simp [himp t hq]

/-- Operational description of one `wait_for_rate_limit` call at time `now`:
it returns at some time `n2 ≥ now`, records `n2` in both the request list and
the history, leaves at most `N - 1` older entries in the request list, and
drops only entries that are at least one second older than `n2`. -/
theorem wait_for_rate_limit_spec (st : RLState) (now : ℚ)
    (hlen : st.times.length ≤ MAX_REQUESTS_PER_SECOND) :
    ∃ P n2, wait_for_rate_limit st now = (⟨P ++ [n2], st.hist ++ [n2]⟩, n2) ∧
      P.length + 1 ≤ MAX_REQUESTS_PER_SECOND ∧
      now ≤ n2 ∧
      (∀ x : ℚ, n2 - 1 ≤ x →
        (st.times.filter (fun t => decide (x < t))).length =
          (P.filter (fun t => decide (x < t))).length) := by
  simp only [wait_for_rate_limit]
  by_cases hbig : MAX_REQUESTS_PER_SECOND ≤ (dropOld now st.times).length
  · rw [if_pos hbig]
    cases hts : dropOld now st.times with
    | nil =>
      rw [hts] at hbig
      simp [MAX_REQUESTS_PER_SECOND] at hbig
    | cons t0 tail =>
      have ht0 : t0 ∈ st.times.filter (fun t => decide (now - t < 1)) := by
        have : t0 ∈ dropOld now st.times := by
          rw [hts]; exact List.mem_cons_self t0 tail
        simpa [dropOld] using this
      have ht0lt : now - t0 < 1 :=
        of_decide_eq_true (List.mem_filter.mp ht0).2
      have hsleep : 0 < 1 - (now - t0) := by linarith
      dsimp only
      rw [if_pos hsleep]
      refine ⟨dropOld (now + (1 - (now - t0))) (t0 :: tail), now + (1 - (now - t0)),
        rfl, ?_, by linarith, ?_⟩
      · have hdropped : (dropOld (now + (1 - (now - t0))) (t0 :: tail)).length
            < (t0 :: tail).length := by
          apply List.length_filter_lt_length_iff_exists.mpr
          refine ⟨t0, List.mem_cons_self t0 tail, ?_⟩
          have h1 : now + (1 - (now - t0)) - t0 = 1 := by ring
          simp [h1]
        have hle : (t0 :: tail).length ≤ st.times.length := by
          rw [← hts]
          exact List.length_filter_le _ _
        omega
      · intro x hx
        rw [← hts]
        unfold dropOld
        rw [length_filter_filter_of_imp, length_filter_filter_of_imp]
        · intro t hqt
          have hxt : x < t := of_decide_eq_true hqt
          exact decide_eq_true (by linarith)
        · intro t hqt
          have hxt : x < t := of_decide_eq_true hqt
          exact decide_eq_true (by linarith)
  · rw [if_neg hbig]
    refine ⟨dropOld now st.times, now, rfl, ?_, le_refl now, ?_⟩
    · have : (dropOld now st.times).length < MAX_REQUESTS_PER_SECOND :=
        Nat.lt_of_not_le hbig
      omega
    · intro x hx
      unfold dropOld
      rw [length_filter_filter_of_imp]
      intro t hqt
      have hxt : x < t := of_decide_eq_true hqt
      exact decide_eq_true (by linarith)

/-- One serialized `wait_for_rate_limit` call at a non-earlier time preserves
the rate-governor invariant. -/
theorem RLInv_step (st : RLState) (c now : ℚ) (hc : c ≤ now) (hinv : RLInv st c) :
    RLInv (wait_for_rate_limit st now).1 (wait_for_rate_limit st now).2 ∧
      now ≤ (wait_for_rate_limit st now).2 := by
  obtain ⟨hlen, hhist, hH, hD⟩ := hinv
  obtain ⟨P, n2, heq, hP, hn2, hPfilter⟩ := wait_for_rate_limit_spec st now hlen
  rw [heq]
  dsimp only
  have hcn2 : c ≤ n2 := le_trans hc hn2
  refine ⟨⟨?_, ?_, ?_, ?_⟩, hn2⟩
  · simpa using hP
  · intro t ht
    rcases List.mem_append.mp ht with ht | ht
    · exact le_trans (hhist t ht) hcn2
    · rw [List.mem_singleton.mp ht]
  · intro x hx
    have hxc : c - 1 ≤ x := by linarith
    rw [List.filter_append, List.filter_append, List.length_append,
      List.length_append, hH x hxc, hPfilter x hx]
  · intro e
    unfold windowCount
    rw [List.filter_append, List.length_append]
    by_cases hin : (decide (e - 1 < n2) && decide (n2 ≤ e)) = true
    · have hn2e : n2 ≤ e := of_decide_eq_true (Bool.and_elim_right hin)
      have hhe : ∀ t ∈ st.hist,
          (decide (e - 1 < t) && decide (t ≤ e)) = decide (e - 1 < t) := by
        intro t ht
        have : t ≤ e := le_trans (hhist t ht) (le_trans hcn2 hn2e)
        simp [decide_eq_true this]
      rw [List.filter_congr hhe]
      have hx : n2 - 1 ≤ e - 1 := by linarith
      rw [hH (e - 1) (by linarith), hPfilter (e - 1) hx]
      have hsingle : ([n2].filter
          (fun t => decide (e - 1 < t) && decide (t ≤ e))).length ≤ 1 :=
        List.length_filter_le _ _
      have hfin : (P.filter (fun t => decide (e - 1 < t))).length ≤ P.length :=
        List.length_filter_le _ _
      omega
    · have hsingle : ([n2].filter
          (fun t => decide (e - 1 < t) && decide (t ≤ e))).length = 0 := by
        simp only [List.filter]
        rw [Bool.eq_false_iff.mpr hin]
        rfl
      rw [hsingle]
      have := hD e
      unfold windowCount at this
      omega

/-- The rate-governor invariant at clock 0 with empty state. -/
theorem RLInv_init : RLInv ⟨[], []⟩ 0 := by
  refine ⟨by simp [MAX_REQUESTS_PER_SECOND], by simp, by simp, ?_⟩
  intro e
  simp [windowCount, MAX_REQUESTS_PER_SECOND]

/-- Any serialized run of `wait_for_rate_limit` calls preserves the invariant. -/
theorem runRL_inv (ds : List ℚ) :
    ∀ (st : RLState) (c : ℚ), (∀ d ∈ ds, 0 ≤ d) → RLInv st c →
      RLInv (runRL st c ds).1 (runRL st c ds).2 := by
  induction ds with
  | nil =>
    intro st c _ hinv
    simpa [runRL] using hinv
  | cons d ds ih =>
    intro st c hd hinv
    have hd0 : 0 ≤ d := hd d (List.mem_cons_self d ds)
    have hstep := RLInv_step st c (c + d) (by linarith) hinv
    unfold runRL
    exact ih _ _ (fun x hx => hd x (List.mem_cons_of_mem _ hx)) hstep.1

/-- C5: over any serialized sequence of `wait_for_rate_limit` acquisitions
(with non-negative inter-call delays), no trailing 1-second window of the
recorded acquisition history ever holds more than `MAX_REQUESTS_PER_SECOND`
entries: stale timestamps are dropped, and at the ceiling the call sleeps
until the oldest remaining entry leaves the window before recording. -/
theorem claim_C5_rate_bound (ds : List ℚ) (hd : ∀ d ∈ ds, 0 ≤ d) (e : ℚ) :
    windowCount (runRL ⟨[], []⟩ 0 ds).1.hist e ≤ MAX_REQUESTS_PER_SECOND :=
  (runRL_inv ds ⟨[], []⟩ 0 hd RLInv_init).2.2.2 e

/-- C5 witness: ten immediate back-to-back acquisitions never put more than
eight recorded timestamps into the window ending at time 0. -/
theorem claim_C5_witness :
    windowCount (runRL ⟨[], []⟩ 0 [0, 0, 0, 0, 0, 0, 0, 0, 0, 0]).1.hist 0
      ≤ MAX_REQUESTS_PER_SECOND :=
  claim_C5_rate_bound [0, 0, 0, 0, 0, 0, 0, 0, 0, 0] (by decide) 0

end BettingApp
